import Mathlib

/-!
# Verification of the fs4 browser-based-upload signing engine

A shallow embedding of the `fs4` Go package (AWS Signature Version 4
policy/signature construction for browser-based S3 uploads) together with
proofs about its behaviour.

Bytes are modelled as `Nat` values below 256, 32-bit machine words as `Nat`
with explicit reduction modulo `2 ^ 32`.  Go strings are modelled as Lean
`String`s (sequences of Unicode scalar values); conversion to bytes goes
through an explicit UTF-8 encoder.  Fallible Go results (`[]byte, error`)
are modelled as `Option`.
-/

/-! ## Bytes and 32-bit words -/

/-- Addition of 32-bit words, reduced modulo `2 ^ 32`. -/
def add32 (x y : Nat) : Nat := (x + y) % 4294967296

/-- Right rotation of a 32-bit word (argument assumed below `2 ^ 32`). -/
def rotr32 (n x : Nat) : Nat := (x >>> n) ||| ((x <<< (32 - n)) % 4294967296)

/-- Bitwise complement of a 32-bit word. -/
def not32 (x : Nat) : Nat := x ^^^ 4294967295

/-! ## SHA-256 (FIPS 180-4) -/

/-- Integer cube root by bitwise binary search (sufficient for the
40-something-bit radicands used below). -/
def icbrt (n : Nat) : Nat :=
  (List.range 44).foldl
    (fun r i =>
      let c := r + (1 <<< (43 - i))
      if c * c * c ≤ n then c else r) 0

/-- The first 64 primes, whose roots seed the SHA-256 constants. -/
def sha256Primes : List Nat :=
  [2, 3, 5, 7, 11, 13, 17, 19, 23, 29, 31, 37, 41, 43, 47, 53,
   59, 61, 67, 71, 73, 79, 83, 89, 97, 101, 103, 107, 109, 113, 127, 131,
   137, 139, 149, 151, 157, 163, 167, 173, 179, 181, 191, 193, 197, 199, 211, 223,
   227, 229, 233, 239, 241, 251, 257, 263, 269, 271, 277, 281, 283, 293, 307, 311]

/-- SHA-256 round constants: the first 32 fractional-part bits of the cube
roots of the first 64 primes (FIPS 180-4, section 4.2.2). -/
def sha256K : Array Nat :=
  (sha256Primes.map fun p => icbrt (p <<< 96) % 4294967296).toArray

/-- SHA-256 initial hash value: the first 32 fractional-part bits of the
square roots of the first 8 primes (FIPS 180-4, section 5.3.3). -/
def sha256H0 : List Nat :=
  (sha256Primes.take 8).map fun p => Nat.sqrt (p <<< 64) % 4294967296

/-- `Ch` function of SHA-256. -/
def sha256Ch (e f g : Nat) : Nat := (e &&& f) ^^^ (not32 e &&& g)

/-- `Maj` function of SHA-256. -/
def sha256Maj (a b c : Nat) : Nat := (a &&& b) ^^^ (a &&& c) ^^^ (b &&& c)

/-- Big sigma-0 of SHA-256. -/
def bigSigma0 (x : Nat) : Nat := rotr32 2 x ^^^ rotr32 13 x ^^^ rotr32 22 x

/-- Big sigma-1 of SHA-256. -/
def bigSigma1 (x : Nat) : Nat := rotr32 6 x ^^^ rotr32 11 x ^^^ rotr32 25 x

/-- Small sigma-0 of SHA-256. -/
def smallSigma0 (x : Nat) : Nat := rotr32 7 x ^^^ rotr32 18 x ^^^ (x >>> 3)

/-- Small sigma-1 of SHA-256. -/
def smallSigma1 (x : Nat) : Nat := rotr32 17 x ^^^ rotr32 19 x ^^^ (x >>> 10)

/-- Group bytes into big-endian 32-bit words. -/
def bytesToWords : List Nat → List Nat
  | a :: b :: c :: d :: rest => (((a * 256 + b) * 256 + c) * 256 + d) :: bytesToWords rest
  | _ => []

/-- Render each 32-bit word as four big-endian bytes. -/
def wordsToBytes (ws : List Nat) : List Nat :=
  List.flatten (ws.map fun w => [w / 16777216 % 256, w / 65536 % 256, w / 256 % 256, w % 256])

/-- Eight big-endian bytes of a 64-bit length field. -/
def be64 (n : Nat) : List Nat :=
  [n / 72057594037927936 % 256, n / 281474976710656 % 256, n / 1099511627776 % 256,
   n / 4294967296 % 256, n / 16777216 % 256, n / 65536 % 256, n / 256 % 256, n % 256]

/-- SHA-256 message padding: a `0x80` byte, zeros to 56 mod 64, then the
bit length as eight big-endian bytes. -/
def sha256Pad (msg : List Nat) : List Nat :=
  msg ++ 128 :: List.replicate ((119 - msg.length % 64) % 64) 0 ++ be64 (msg.length * 8)

/-- Split a byte sequence into 64-byte blocks. -/
def toBlocks : List Nat → List (List Nat)
  | [] => []
  | x :: xs => ((x :: xs).take 64) :: toBlocks ((x :: xs).drop 64)
termination_by l => l.length
decreasing_by simp [List.length_drop]; omega

/-- The 64-word message schedule of one block. -/
def msgSchedule (block : List Nat) : Array Nat :=
  (List.range 48).foldl
    (fun w i =>
      let t := i + 16
      w.push ((smallSigma1 (w.getD (t - 2) 0) + w.getD (t - 7) 0 +
               smallSigma0 (w.getD (t - 15) 0) + w.getD (t - 16) 0) % 4294967296))
    (bytesToWords block).toArray

/-- One SHA-256 round on the eight-word working state. -/
def sha256Round (st : List Nat) (kw : Nat) : List Nat :=
  match st with
  | [a, b, c, d, e, f, g, h] =>
    let t1 := (h + bigSigma1 e + sha256Ch e f g + kw) % 4294967296
    let t2 := (bigSigma0 a + sha256Maj a b c) % 4294967296
    [(t1 + t2) % 4294967296, a, b, c, (d + t1) % 4294967296, e, f, g]
  | other => other

/-- SHA-256 compression of one 64-byte block into the running hash. -/
def sha256Compress (h0 : List Nat) (block : List Nat) : List Nat :=
  let w := msgSchedule block
  let st := (List.range 64).foldl
    (fun st i => sha256Round st ((sha256K.getD i 0 + w.getD i 0) % 4294967296)) h0
  List.zipWith add32 h0 st

/-- SHA-256 of a byte sequence. -/
def sha256 (msg : List Nat) : List Nat :=
  wordsToBytes ((toBlocks (sha256Pad msg)).foldl sha256Compress sha256H0)

/-! ## HMAC-SHA256 (RFC 2104) -/

/-- HMAC-SHA256 over raw key and message bytes: keys longer than the 64-byte
block are hashed first, then padded with zeros; the MAC is
`SHA256(opadKey ++ SHA256(ipadKey ++ msg))`. -/
def hmacSha256Core (key msg : List Nat) : List Nat :=
  let k0 := if 64 < key.length then sha256 key else key
  let kp := k0 ++ List.replicate (64 - k0.length) 0
  sha256 ((kp.map fun b => b ^^^ 92) ++ sha256 ((kp.map fun b => b ^^^ 54) ++ msg))

/-! ## Hex and UTF-8 -/

/-- Lowercase hexadecimal digit. -/
def hexDigitCh (d : Nat) : Char := if d < 10 then Char.ofNat (48 + d) else Char.ofNat (87 + d)

/-- Lowercase hexadecimal rendering of a byte sequence. -/
def hexEncode (bs : List Nat) : String :=
  String.mk (List.flatten (bs.map fun b => [hexDigitCh (b / 16 % 16), hexDigitCh (b % 16)]))

/-- UTF-8 bytes of one Unicode scalar value.  (The final modulus operations
are inert for valid scalar values, which lie below `0x110000`; they make the
byte bounds provable without appealing to the validity invariant.) -/
def utf8Char (c : Char) : List Nat :=
  let n := c.toNat
  if n < 128 then [n]
  else if n < 2048 then [192 + n / 64, 128 + n % 64]
  else if n < 65536 then [224 + n / 4096, 128 + n / 64 % 64, 128 + n % 64]
  else [240 + n / 262144 % 8, 128 + n / 4096 % 64, 128 + n / 64 % 64, 128 + n % 64]

/-- UTF-8 encoding of a string, as Go's `[]byte(s)` conversion produces. -/
def utf8Encode (s : String) : List Nat := List.flatten (s.data.map utf8Char)

/-! ## Standard base64 (RFC 4648, the alphabet of Go's `base64.StdEncoding`) -/

/-- The standard base64 alphabet. -/
def b64Alphabet : List Char :=
  "ABCDEFGHIJKLMNOPQRSTUVWXYZabcdefghijklmnopqrstuvwxyz0123456789+/".data

/-- The character encoding a six-bit group. -/
def b64Ch (n : Nat) : Char := b64Alphabet.getD n 'A'

/-- Standard base64 encoding of a byte list, with `=` padding. -/
def b64EncodeCh : List Nat → List Char
  | [] => []
  | [a] => [b64Ch (a / 4), b64Ch (a % 4 * 16), '=', '=']
  | [a, b] => [b64Ch (a / 4), b64Ch (a % 4 * 16 + b / 16), b64Ch (b % 16 * 4), '=']
  | a :: b :: c :: rest =>
    b64Ch (a / 4) :: b64Ch (a % 4 * 16 + b / 16) :: b64Ch (b % 16 * 4 + c / 64) ::
      b64Ch (c % 64) :: b64EncodeCh rest

/-- Standard base64 encoding of bytes as a string, as
`base64.StdEncoding.EncodeToString` produces. -/
def b64Encode (bs : List Nat) : String := String.mk (b64EncodeCh bs)

/-- The six-bit value of one base64 character, if it is in the alphabet. -/
def b64DecodeCh (c : Char) : Option Nat := b64Alphabet.indexOf? c

/-- Standard base64 decoding of a character list (strict four-character
groups, padding only at the end). -/
def b64DecodeChs : List Char → Option (List Nat)
  | [] => some []
  | c1 :: c2 :: c3 :: c4 :: rest =>
    match b64DecodeCh c1, b64DecodeCh c2 with
    | some a, some b =>
      if c3 = '=' then
        if c4 = '=' ∧ rest = [] then some [a * 4 + b / 16] else none
      else
        match b64DecodeCh c3 with
        | some c =>
          if c4 = '=' then
            if rest = [] then some [a * 4 + b / 16, b % 16 * 16 + c / 4] else none
          else
            match b64DecodeCh c4, b64DecodeChs rest with
            | some d, some tail =>
              some ((a * 4 + b / 16) :: (b % 16 * 16 + c / 4) :: (c % 4 * 64 + d) :: tail)
            | _, _ => none
        | none => none
    | _, _ => none
  | _ => none

/-- Standard base64 decoding of a string. -/
def b64Decode (s : String) : Option (List Nat) := b64DecodeChs s.data

/-! ## Time

Go's `time.Time` carries an absolute instant and a location; formatting uses
the location's offset.  An `Instant` is the Unix second count together with
the zone offset (in seconds) of the location attached to the value. -/

/-- A point in time as Go's `time.Time` presents it to `Format`: absolute
Unix seconds plus the attached location's UTC offset in seconds. -/
structure Instant where
  sec : Int
  offset : Int
deriving DecidableEq, Repr

/-- Proleptic Gregorian civil date (year, month, day) of a day count from
the Unix epoch (days since 1970-01-01). -/
def civilFromDays (z0 : Int) : Int × Nat × Nat :=
  let z := z0 + 719468
  let era := Int.ediv z 146097
  let doe := (z - era * 146097).toNat
  let yoe := (doe - doe / 1460 + doe / 36524 - doe / 146096) / 365
  let y := era * 400 + yoe
  let doy := doe - (365 * yoe + yoe / 4 - yoe / 100)
  let mp := (5 * doy + 2) / 153
  let d := doy - (153 * mp + 2) / 5 + 1
  let m := if mp < 10 then mp + 3 else mp - 9
  (if m ≤ 2 then y + 1 else y, m, d)

/-- A decimal digit character. -/
def decDigit (d : Nat) : Char := Char.ofNat (48 + d)

/-- Two-digit zero-padded decimal (the `%02d` fields of Go's layouts; all
uses are below 100). -/
def pad2 (n : Nat) : String := String.mk [decDigit (n / 10 % 10), decDigit (n % 10)]

/-- Four-digit zero-padded decimal (Go's four-digit year field; all
exercised years are below 10000). -/
def pad4 (n : Nat) : String :=
  String.mk [decDigit (n / 1000 % 10), decDigit (n / 100 % 10),
             decDigit (n / 10 % 10), decDigit (n % 10)]

/-- The year rendered as Go renders it for the `2006` layout field
(four digits, `-` sign in front for negative years). -/
def yearStr (y : Int) : String :=
  if y < 0 then "-" ++ pad4 y.natAbs else pad4 y.toNat

/-- The `Z07:00` layout field: `Z` for offset zero, otherwise a signed
`hh:mm` numeric offset. -/
def offsetStr (off : Int) : String :=
  if off = 0 then "Z"
  else (if off < 0 then "-" else "+") ++ pad2 (off.natAbs / 3600) ++ ":" ++
       pad2 (off.natAbs % 3600 / 60)

/-- Go `t.Format("2006-01-02")`: the civil date in `t`'s own location. -/
def formatDateOnly (t : Instant) : String :=
  let total := t.sec + t.offset
  let ymd := civilFromDays (Int.ediv total 86400)
  yearStr ymd.1 ++ "-" ++ pad2 ymd.2.1 ++ "-" ++ pad2 ymd.2.2

/-- Go `t.Format(time.RFC3339)` (`2006-01-02T15:04:05Z07:00`). -/
def formatRFC3339 (t : Instant) : String :=
  let total := t.sec + t.offset
  let s := (Int.emod total 86400).toNat
  formatDateOnly t ++ "T" ++ pad2 (s / 3600) ++ ":" ++ pad2 (s % 3600 / 60) ++
    ":" ++ pad2 (s % 60) ++ offsetStr t.offset

/-! ## JSON rendering (Go `encoding/json` with its default HTML escaping) -/

/-- The escaped form of one character inside a Go JSON string literal:
quote, backslash and the newline/carriage-return/tab controls get two-byte
escapes, other controls a `\u00XX` escape, the HTML-sensitive `<`, `>`, `&`
and the line separators U+2028/U+2029 a six-byte escape, and everything else
passes through. -/
def jsonEscapeChar (c : Char) : String :=
  if c = '"' then "\\\""
  else if c = '\\' then "\\\\"
  else if c = '\n' then "\\n"
  else if c = '\r' then "\\r"
  else if c = '\t' then "\\t"
  else if c.toNat < 32 then
    "\\u00" ++ String.mk [hexDigitCh (c.toNat / 16), hexDigitCh (c.toNat % 16)]
  else if c = '<' then "\\u003c"
  else if c = '>' then "\\u003e"
  else if c = '&' then "\\u0026"
  else if c.toNat = 8232 then "\\u2028"
  else if c.toNat = 8233 then "\\u2029"
  else String.mk [c]

/-- A Go JSON string literal. -/
def jsonQuote (s : String) : String :=
  "\"" ++ String.join (s.data.map jsonEscapeChar) ++ "\""

/-! ## The `fs4strings` constants -/

namespace fs4s

def AWS4HmacSha256 : String := "AWS4-HMAC-SHA256"

def CredentialScope : String := "s3/aws4_request"

def Key : String := "key"

def Policy : String := "policy"

def XAMZCredential : String := "x-amz-credential"

def XAMZAlgorithm : String := "x-amz-algorithm"

def XAMZSignature : String := "x-amz-signature"

def XAMZDate : String := "x-amz-date"

def Acl : String := "acl"

def Bucket : String := "bucket"

def ContentType : String := "Content-Type"

def SuccessActionRedirect : String := "success_action_redirect"

def SuccessActionStatus : String := "success_action_status"

def XAMZSecurityToken : String := "x-amz-security-token"

end fs4s

/-! ## The `fs4` data model

Go's `Conditions` is `[]map[string]string`; every condition the package
constructs (`setDefaultConditions`, `AddCondition`) is a single-key map, so
each entry is embedded as its key-value pair. -/

/-- Go `S3Config`. -/
structure S3Config where
  AccessKey : String
  SecretKey : String
  Bucket : String
  Region : String
  Accelerate : Bool
deriving DecidableEq, Repr

/-- Go `BBU`.  `NewBBU` leaves `minutesToExpiry`, `secretKey` and `region`
at their zero values; they are carried for fidelity but never read. -/
structure BBU where
  Conditions : List (String × String)
  DateStringISO : String
  Credential : String
  config : S3Config
  minutesToExpiry : Int
  expiration : String
  dateString : String
  secretKey : String
  region : String
deriving DecidableEq, Repr

/-- Go `bbuParams`.  The JSON tags serialize `Conditions` and `Expiration`
and skip (`json:"-"`) the other four fields. -/
structure bbuParams where
  Conditions : List (String × String)
  Expiration : String
  SecretKey : String
  Policy64 : String
  Region : String
  Date : String
deriving DecidableEq, Repr

/-- Go `BBUResponse` with its JSON field names in declaration order:
url, success_action_redirect, x_amz_algorithm, x_amz_credential,
aws_access_key_id, signature, policy, x_amz_date, key. -/
structure BBUResponse where
  URL : String
  RedirectURI : String
  Algorithm : String
  Credential : String
  AccessKey : String
  Signature : String
  Policy : String
  Date : String
  Key : String
deriving DecidableEq, Repr

/-- What Go `json.Marshal` produces on `bbuParams`: the two tagged fields in
struct declaration order; the `json:"-"` fields (`SecretKey`, `Policy64`,
`Region`, `Date`) are not read at all. -/
def renderParams (p : bbuParams) : String :=
  "\x7b\"conditions\":[" ++
    String.intercalate "," (p.Conditions.map fun kv =>
      "\x7b" ++ jsonQuote kv.1 ++ ":" ++ jsonQuote kv.2 ++ "\x7d") ++
  "],\"expiration\":" ++ jsonQuote p.Expiration ++ "\x7d"

/-- Go `json.Marshal(bbu)` for `*bbuParams`: the `([]byte, error)` result as
an `Option`; marshalling a struct of strings and string maps never errors. -/
def jsonMarshalBBUParams (p : bbuParams) : Option String := some (renderParams p)

/-- What Go `json.Marshal` produces on `BBUResponse`: nine string fields in
declaration order under their tag names. -/
def renderBBUResponse (r : BBUResponse) : String :=
  "\x7b\"url\":" ++ jsonQuote r.URL ++
  ",\"success_action_redirect\":" ++ jsonQuote r.RedirectURI ++
  ",\"x_amz_algorithm\":" ++ jsonQuote r.Algorithm ++
  ",\"x_amz_credential\":" ++ jsonQuote r.Credential ++
  ",\"aws_access_key_id\":" ++ jsonQuote r.AccessKey ++
  ",\"signature\":" ++ jsonQuote r.Signature ++
  ",\"policy\":" ++ jsonQuote r.Policy ++
  ",\"x_amz_date\":" ++ jsonQuote r.Date ++
  ",\"key\":" ++ jsonQuote r.Key ++ "\x7d"

/-- Go `json.Marshal(bbuResponse)`: never errors on this flat all-string
struct. -/
def jsonMarshalBBUResponse (r : BBUResponse) : Option String :=
  some (renderBBUResponse r)

/-! ## The `fs4` functions -/

/-- Go `shmacSHA256(key, message string) hash.Hash`: the returned hash's
`Sum(nil)` is the HMAC-SHA256 MAC, which is what every caller extracts. -/
def shmacSHA256 (key message : String) : List Nat :=
  hmacSha256Core (utf8Encode key) (utf8Encode message)

/-- Go `hmacSHA256(key hash.Hash, message string)`: re-keys with the
previous MAC's bytes (`string(key.Sum(nil))` round-trips through a Go
string unchanged). -/
def hmacSHA256 (key : List Nat) (message : String) : List Nat :=
  hmacSha256Core key (utf8Encode message)

/-- Go `hmacToHex(key hash.Hash, message string)`. -/
def hmacToHex (key : List Nat) (message : String) : String :=
  hexEncode (hmacSHA256 key message)

/-- Go `dateString(now)`: `now.Format("2006-01-02")` with every `-` removed
(`strings.Replace(s, "-", "", -1)` deletes each occurrence). -/
def dateString (now : Instant) : String :=
  String.mk ((formatDateOnly now).data.filter fun c => c ≠ '-')

/-- Go `dateStringISO(dateString)`. -/
def dateStringISO (dateString : String) : String := dateString ++ "T000000Z"

/-- Go `expirationDate(now, timeToExpiry)`: format `now` plus the expiry
minutes as RFC3339, keep everything before the first `+`
(`strings.Split(s, "+")[0]`), append `".000Z"`. -/
def expirationDate (now : Instant) (timeToExpiry : Int) : String :=
  let expiration := formatRFC3339 { now with sec := now.sec + timeToExpiry * 60 }
  String.mk (expiration.data.takeWhile fun c => c ≠ '+') ++ ".000Z"

/-- Go `(c *S3Config).credential(dateString)`. -/
def S3Config.credential (c : S3Config) (dateString : String) : String :=
  String.intercalate "/" [c.AccessKey, dateString, c.Region, fs4s.CredentialScope]

/-- Go `(bbu *BBU).setDefaultConditions()`. -/
def BBU.setDefaultConditions (bbu : BBU) : BBU :=
  { bbu with Conditions := [
      (fs4s.Bucket, bbu.config.Bucket),
      (fs4s.XAMZCredential, bbu.Credential),
      (fs4s.XAMZAlgorithm, fs4s.AWS4HmacSha256),
      (fs4s.XAMZDate, bbu.DateStringISO)] }

/-- Go `(fs4 *FS4).NewBBU(minutesToExpiry)`: the session built from the
client's config and the captured instant (the single `time.Now()` read,
passed explicitly).  Fields the constructor does not mention keep Go's zero
values. -/
def NewBBU (config : S3Config) (now : Instant) (minutesToExpiry : Int) : BBU :=
  let ds := dateString now
  BBU.setDefaultConditions
    { config := config
      dateString := ds
      DateStringISO := dateStringISO ds
      Credential := config.credential ds
      expiration := expirationDate now minutesToExpiry
      Conditions := []
      minutesToExpiry := 0
      secretKey := ""
      region := "" }

/-- Go `(bbu *BBU).AddCondition(key, value)`. -/
def BBU.AddCondition (bbu : BBU) (key value : String) : BBU :=
  { bbu with Conditions := bbu.Conditions ++ [(key, value)] }

/-- The loop of Go `conditionForKey`: scan the condition list in order,
return the first value stored under `key`, empty string if none is. -/
def condForKeyList : List (String × String) → String → String
  | [], _ => ""
  | kv :: rest, key => if kv.1 = key then kv.2 else condForKeyList rest key

/-- Go `(bbu *BBU).conditionForKey(key)`. -/
def BBU.conditionForKey (bbu : BBU) (key : String) : String :=
  condForKeyList bbu.Conditions key

/-- Go `(bbu *BBU).toParams()`.  `Policy64` gets its zero value. -/
def BBU.toParams (bbu : BBU) : bbuParams :=
  { Conditions := bbu.Conditions
    Expiration := bbu.expiration
    Date := bbu.dateString
    SecretKey := bbu.config.SecretKey
    Region := bbu.config.Region
    Policy64 := "" }

/-- Go `(bbu *BBU).bucketURL()`. -/
def BBU.bucketURL (bbu : BBU) : String :=
  let s3s := if bbu.config.Accelerate then ".s3-accelerate" else ".s3"
  "http://" ++ bbu.config.Bucket ++ s3s ++ ".amazonaws.com/"

/-- The body of Go `(bbu *bbuParams).toPolicy()` after the `json.Marshal`
call, factored over the marshal result so the error branch is visible: on a
marshal error it returns the empty string and leaves the params unchanged;
otherwise it caches the base64 encoding in `Policy64` and returns it.  (Go
mutates the params in place; the updated value is returned alongside.) -/
def toPolicyCore (marshalled : Option String) (bbu : bbuParams) : String × bbuParams :=
  match marshalled with
  | none => ("", bbu)
  | some paramsJSON =>
    let pol := b64Encode (utf8Encode paramsJSON)
    (pol, { bbu with Policy64 := pol })

/-- Go `(bbu *bbuParams).toPolicy()`. -/
def bbuParams.toPolicy (bbu : bbuParams) : String × bbuParams :=
  toPolicyCore (jsonMarshalBBUParams bbu) bbu

/-- Go `(bbu *bbuParams).toSignature()`: fill `Policy64` through `toPolicy`
if it is still empty, derive the four-stage SigV4 signing key, and sign the
cached base64 policy. -/
def bbuParams.toSignature (bbu : bbuParams) : String :=
  let p := if bbu.Policy64 = "" then (bbuParams.toPolicy bbu).2 else bbu
  let dateKey := shmacSHA256 ("AWS4" ++ bbu.SecretKey) bbu.Date
  let dateRegionKey := hmacSHA256 dateKey bbu.Region
  let dateRegionServiceKey := hmacSHA256 dateRegionKey "s3"
  let signingKey := hmacSHA256 dateRegionServiceKey "aws4_request"
  hmacToHex signingKey p.Policy64

/-- Go `(bbu *BBU).Policy()`. -/
def BBU.Policy (bbu : BBU) : String := (bbuParams.toPolicy bbu.toParams).1

/-- Go `(bbu *BBU).Signature()`. -/
def BBU.Signature (bbu : BBU) : String := bbuParams.toSignature bbu.toParams

/-- The `BBUResponse` value built inside Go `FormFields`, with the struct
literal's field expressions evaluated in their source order — in particular
`toPolicy` runs before `toSignature` and the mutated params value is shared,
so the signature is taken over the cached `Policy64`. -/
def BBU.formFieldsResponse (bbu : BBU) : BBUResponse :=
  let params := bbu.toParams
  let redirectURI := bbu.conditionForKey fs4s.SuccessActionRedirect
  let key := bbu.conditionForKey fs4s.Key
  let polAndParams := bbuParams.toPolicy params
  let sig := bbuParams.toSignature polAndParams.2
  { URL := bbu.bucketURL
    RedirectURI := redirectURI
    AccessKey := bbu.config.AccessKey
    Algorithm := fs4s.AWS4HmacSha256
    Credential := bbu.config.credential bbu.dateString
    Key := key
    Date := bbu.DateStringISO
    Policy := polAndParams.1
    Signature := sig }

/-- Go `(bbu *BBU).FormFields()`: the marshalled response bundle. -/
def BBU.FormFields (bbu : BBU) : Option String :=
  jsonMarshalBBUResponse bbu.formFieldsResponse

/-! ## Specification-side definitions

These follow the wording of the specification (§4.2, §4.4, §4.1, §4.3) and
exist to be compared with the definitions translated from the source. -/

/-- Spec `Hmac(key, message)`: standard HMAC-SHA256 of a string message
under a byte key. -/
def Hmac (key : List Nat) (message : String) : List Nat :=
  hmacSha256Core key (utf8Encode message)

/-- Spec `DeriveSigningKey(secretKey, dateCompact, region)`: the four-stage
chain date → region → service → request. -/
def DeriveSigningKey (secretKey dateCompact region : String) : List Nat :=
  let dateKey := Hmac (utf8Encode ("AWS4" ++ secretKey)) dateCompact
  let regionKey := Hmac dateKey region
  let serviceKey := Hmac regionKey "s3"
  Hmac serviceKey "aws4_request"

/-- Spec `SignHex(signingKey, message)`: the MAC rendered as lowercase
hex. -/
def SignHex (signingKey : List Nat) (message : String) : String :=
  hexEncode (Hmac signingKey message)

/-- Spec `ToCanonicalJSON`, condition part: the conditions in insertion
order, each a single-key object, comma-separated; written by direct
recursion, independently of the embedded marshaller. -/
def conditionsJSONSpec : List (String × String) → String
  | [] => ""
  | [kv] => "\x7b" ++ jsonQuote kv.1 ++ ":" ++ jsonQuote kv.2 ++ "\x7d"
  | kv :: rest =>
    ("\x7b" ++ jsonQuote kv.1 ++ ":" ++ jsonQuote kv.2 ++ "\x7d") ++ "," ++
      conditionsJSONSpec rest

/-- Spec `ToCanonicalJSON(conditions, expiration)`: exactly the shape
with a `conditions` array and an `expiration` string. -/
def policyJSONSpec (conds : List (String × String)) (exp : String) : String :=
  "\x7b\"conditions\":[" ++ conditionsJSONSpec conds ++ "],\"expiration\":" ++
    jsonQuote exp ++ "\x7d"

/-- Spec `CompactDate` under the UTC convention: the UTC civil date of the
instant as `YYYYMMDD`. -/
def specCompactDateUTC (t : Instant) : String :=
  let ymd := civilFromDays (Int.ediv t.sec 86400)
  pad4 ymd.1.natAbs ++ pad2 ymd.2.1 ++ pad2 ymd.2.2

/-- The calendar date in the instant's own zone as `YYYYMMDD` — what the
source actually formats. -/
def localCompactDate (t : Instant) : String :=
  let ymd := civilFromDays (Int.ediv (t.sec + t.offset) 86400)
  pad4 ymd.1.natAbs ++ pad2 ymd.2.1 ++ pad2 ymd.2.2

/-- Spec `Lookup(key)`: first-match scan, empty string when not found. -/
def lookupSpec (conds : List (String × String)) (key : String) : String :=
  ((conds.find? fun kv => kv.1 = key).map Prod.snd).getD ""

/-! ## Helper lemmas -/

theorem b64DecodeCh_b64Ch {n : Nat} (h : n < 64) : b64DecodeCh (b64Ch n) = some n := by
  have tbl : ∀ m : Nat, m < 64 → b64DecodeCh (b64Ch m) = some m := by decide
  exact tbl n h

theorem b64Ch_ne_pad {n : Nat} (h : n < 64) : b64Ch n ≠ '=' := by
  have tbl : ∀ m : Nat, m < 64 → b64Ch m ≠ '=' := by decide
  exact tbl n h

theorem b64_roundtrip_chs : ∀ bs : List Nat, (∀ b ∈ bs, b < 256) →
    b64DecodeChs (b64EncodeCh bs) = some bs := by
  intro bs
  induction bs using b64EncodeCh.induct with
  | case1 =>
    intro _
    simp [b64EncodeCh, b64DecodeChs]
  | case2 a =>
    intro h
    have ha : a < 256 := h a (by simp)
    have h1 := b64DecodeCh_b64Ch (show a / 4 < 64 by omega)
    have h2 := b64DecodeCh_b64Ch (show a % 4 * 16 < 64 by omega)
    simp only [b64EncodeCh, b64DecodeChs, h1, h2, if_pos rfl, and_self, if_true,
      Option.some.injEq, List.cons.injEq, and_true]
    omega
  | case3 a b =>
    intro h
    have ha : a < 256 := h a (by simp)
    have hb : b < 256 := h b (by simp)
    have h1 := b64DecodeCh_b64Ch (show a / 4 < 64 by omega)
    have h2 := b64DecodeCh_b64Ch (show a % 4 * 16 + b / 16 < 64 by omega)
    have h3 := b64DecodeCh_b64Ch (show b % 16 * 4 < 64 by omega)
    have hne := b64Ch_ne_pad (show b % 16 * 4 < 64 by omega)
    simp [b64EncodeCh, b64DecodeChs, h1, h2, h3, if_neg hne]
    omega
  | case4 a b c rest ih =>
    intro h
    have ha : a < 256 := h a (by simp)
    have hb : b < 256 := h b (by simp)
    have hc : c < 256 := h c (by simp)
    have hrest : ∀ x ∈ rest, x < 256 := by
      intro x hx
      exact h x (by simp [hx])
    have h1 := b64DecodeCh_b64Ch (show a / 4 < 64 by omega)
    have h2 := b64DecodeCh_b64Ch (show a % 4 * 16 + b / 16 < 64 by omega)
    have h3 := b64DecodeCh_b64Ch (show b % 16 * 4 + c / 64 < 64 by omega)
    have h4 := b64DecodeCh_b64Ch (show c % 64 < 64 by omega)
    have hne3 := b64Ch_ne_pad (show b % 16 * 4 + c / 64 < 64 by omega)
    have hne4 := b64Ch_ne_pad (show c % 64 < 64 by omega)
    simp [b64EncodeCh, b64DecodeChs, h1, h2, h3, h4, if_neg hne3, if_neg hne4, ih hrest]
    omega

/-- Decoding inverts encoding on genuine byte lists. -/
theorem b64_roundtrip (bs : List Nat) (h : ∀ b ∈ bs, b < 256) :
    b64Decode (b64Encode bs) = some bs := by
  have : (b64Encode bs).data = b64EncodeCh bs := rfl
  rw [b64Decode, this, b64_roundtrip_chs bs h]

theorem utf8Char_lt (c : Char) : ∀ b ∈ utf8Char c, b < 256 := by
  intro b hb
  simp only [utf8Char] at hb
  split_ifs at hb <;> simp_all <;> omega

theorem utf8Encode_lt (s : String) : ∀ b ∈ utf8Encode s, b < 256 := by
  intro b hb
  simp only [utf8Encode, List.mem_flatten, List.mem_map] at hb
  obtain ⟨l, ⟨c, _, hcl⟩, hbl⟩ := hb
  exact utf8Char_lt c b (hcl ▸ hbl)

theorem toPolicy_policy64 (p : bbuParams) :
    ((bbuParams.toPolicy p).2).Policy64 = (bbuParams.toPolicy p).1 := by
  simp [bbuParams.toPolicy, toPolicyCore, jsonMarshalBBUParams]

/-- `toSignature` signs the cached `Policy64`, computing it through
`toPolicy` first when it is still empty, under the four-stage derived
key. -/
theorem toSignature_spec (p : bbuParams) :
    bbuParams.toSignature p =
      SignHex (DeriveSigningKey p.SecretKey p.Date p.Region)
        (if p.Policy64 = "" then (bbuParams.toPolicy p).1 else p.Policy64) := by
  by_cases h : p.Policy64 = "" <;>
    simp [bbuParams.toSignature, SignHex, DeriveSigningKey, Hmac, shmacSHA256, hmacSHA256,
      hmacToHex, h, bbuParams.toPolicy, toPolicyCore, jsonMarshalBBUParams]

/-- After `toPolicy` has run, `toSignature` signs exactly the policy string
`toPolicy` returned. -/
theorem toSignature_after_toPolicy (p : bbuParams) :
    bbuParams.toSignature ((bbuParams.toPolicy p).2) =
      SignHex (DeriveSigningKey p.SecretKey p.Date p.Region) ((bbuParams.toPolicy p).1) := by
  rw [toSignature_spec]
  split
  · rfl
  · rfl

theorem condForKeyList_eq_lookup : ∀ (l : List (String × String)) (key : String),
    condForKeyList l key = lookupSpec l key := by
  intro l key
  induction l with
  | nil => rfl
  | cons kv rest ih =>
    by_cases h : kv.1 = key
    · simp [condForKeyList, lookupSpec, List.find?, h]
    · simp only [condForKeyList, lookupSpec, List.find?, if_neg h]
      rw [show (decide (kv.1 = key)) = false by simp [h]]
      simpa [lookupSpec] using ih

/-! ### The marshalled policy JSON coincides with the spec shape -/

/-- The comma-prefixed tail of a joined list. -/
def commaTail : List String → String
  | [] => ""
  | x :: rest => "," ++ x ++ commaTail rest

theorem intercalate_go_append (s : String) : ∀ (xs : List String) (acc₁ acc₂ : String),
    String.intercalate.go (acc₁ ++ acc₂) s xs = acc₁ ++ String.intercalate.go acc₂ s xs := by
  intro xs
  induction xs with
  | nil =>
    intro acc₁ acc₂
    rfl
  | cons x rest ih =>
    intro acc₁ acc₂
    show String.intercalate.go (acc₁ ++ acc₂ ++ s ++ x) s rest = _
    have hassoc : acc₁ ++ acc₂ ++ s ++ x = acc₁ ++ (acc₂ ++ s ++ x) := by
      apply String.ext
      simp
    rw [hassoc, ih]
    rfl

theorem intercalate_comma_spec : ∀ (conds : List (String × String)),
    String.intercalate ","
        (conds.map fun kv => "\x7b" ++ jsonQuote kv.1 ++ ":" ++ jsonQuote kv.2 ++ "\x7d") =
      conditionsJSONSpec conds := by
  intro conds
  induction conds using conditionsJSONSpec.induct with
  | case1 => rfl
  | case2 kv => rfl
  | case3 kv rest0 hne ih0 =>
    cases rest0 with
    | nil => cases hne rfl
    | cons kv2 rest =>
    have ih := ih0
    show String.intercalate.go ("\x7b" ++ jsonQuote kv.1 ++ ":" ++ jsonQuote kv.2 ++ "\x7d")
        "," (("\x7b" ++ jsonQuote kv2.1 ++ ":" ++ jsonQuote kv2.2 ++ "\x7d") ::
          (rest.map fun kv => "\x7b" ++ jsonQuote kv.1 ++ ":" ++ jsonQuote kv.2 ++ "\x7d")) = _
    show String.intercalate.go (("\x7b" ++ jsonQuote kv.1 ++ ":" ++ jsonQuote kv.2 ++ "\x7d") ++
        "," ++ ("\x7b" ++ jsonQuote kv2.1 ++ ":" ++ jsonQuote kv2.2 ++ "\x7d")) ","
        (rest.map fun kv => "\x7b" ++ jsonQuote kv.1 ++ ":" ++ jsonQuote kv.2 ++ "\x7d") = _
    have h1 : ("\x7b" ++ jsonQuote kv.1 ++ ":" ++ jsonQuote kv.2 ++ "\x7d") ++ "," ++
        ("\x7b" ++ jsonQuote kv2.1 ++ ":" ++ jsonQuote kv2.2 ++ "\x7d") =
        (("\x7b" ++ jsonQuote kv.1 ++ ":" ++ jsonQuote kv.2 ++ "\x7d") ++ ",") ++
        ("\x7b" ++ jsonQuote kv2.1 ++ ":" ++ jsonQuote kv2.2 ++ "\x7d") := by
      apply String.ext
      simp
    rw [h1, intercalate_go_append]
    rw [show String.intercalate.go ("\x7b" ++ jsonQuote kv2.1 ++ ":" ++ jsonQuote kv2.2 ++ "\x7d")
        "," (rest.map fun kv => "\x7b" ++ jsonQuote kv.1 ++ ":" ++ jsonQuote kv.2 ++ "\x7d") =
        String.intercalate "," ((kv2 :: rest).map fun kv =>
          "\x7b" ++ jsonQuote kv.1 ++ ":" ++ jsonQuote kv.2 ++ "\x7d") from rfl]
    rw [ih]
    show _ = ("\x7b" ++ jsonQuote kv.1 ++ ":" ++ jsonQuote kv.2 ++ "\x7d") ++ "," ++
      conditionsJSONSpec (kv2 :: rest)
    apply String.ext
    simp

/-- The embedded Go marshaller produces exactly the canonical JSON shape of
the specification. -/
theorem renderParams_eq_spec (p : bbuParams) :
    renderParams p = policyJSONSpec p.Conditions p.Expiration := by
  unfold renderParams policyJSONSpec
  rw [intercalate_comma_spec]

/-! ### The compact date is the local calendar date without separators -/

theorem decDigit_mod_ne_dash (k : Nat) : decDigit (k % 10) ≠ '-' := by
  have h10 : k % 10 < 10 := Nat.mod_lt _ (by norm_num)
  have tbl : ∀ d, d < 10 → decDigit d ≠ '-' := by decide
  exact tbl _ h10

theorem filter_dash_pad2 (n : Nat) :
    (pad2 n).data.filter (fun c => c ≠ '-') = (pad2 n).data := by
  simp [pad2, List.filter, decDigit_mod_ne_dash]

theorem filter_dash_pad4 (n : Nat) :
    (pad4 n).data.filter (fun c => c ≠ '-') = (pad4 n).data := by
  simp [pad4, List.filter, decDigit_mod_ne_dash]

theorem filter_dash_yearStr (y : Int) :
    (yearStr y).data.filter (fun c => c ≠ '-') = (pad4 y.natAbs).data := by
  unfold yearStr
  split_ifs with h
  · rw [show (("-" ++ pad4 y.natAbs).data) = '-' :: (pad4 y.natAbs).data from rfl,
        List.filter_cons, if_neg (by decide)]
    exact filter_dash_pad4 _
  · have hy : y.toNat = y.natAbs := by omega
    rw [hy]
    exact filter_dash_pad4 _

/-- What Go's `dateString` actually computes: the calendar date in the
instant's own zone, as `YYYYMMDD`. -/
theorem dateString_eq_local (t : Instant) : dateString t = localCompactDate t := by
  apply String.ext
  simp only [dateString, localCompactDate, formatDateOnly, String.data_append,
    List.filter_append, filter_dash_pad2, filter_dash_yearStr,
    show ("-" : String).data = ['-'] from rfl]
  simp

/-! ## Concrete session used by witnesses -/

/-- A concrete configuration for witness instantiations. -/
def cfgDemo : S3Config := ⟨"AKIA123", "topsecret", "mybucket", "us-east-1", false⟩

/-- A concrete session: `NewBBU` at the UTC instant 2024-03-05T14:30:00Z
with a ten-minute expiry. -/
def bbuDemo : BBU := NewBBU cfgDemo ⟨1709649000, 0⟩ 10

/-! ## The claims -/

/-- C1: for every session state, the signature returned by `Signature` and
by `FormFields` equals the lowercase-hex HMAC-SHA256 of the base64 policy
string under the key derived by the four-stage chain
dateKey = Hmac("AWS4"+secretKey, dateCompact), regionKey = Hmac(dateKey,
region), serviceKey = Hmac(regionKey, "s3"),
signingKey = Hmac(serviceKey, "aws4_request"). -/
theorem claim_C1 (bbu : BBU) :
    BBU.Signature bbu =
      SignHex (DeriveSigningKey bbu.config.SecretKey bbu.dateString bbu.config.Region)
        (BBU.Policy bbu) ∧
    (BBU.formFieldsResponse bbu).Signature =
      SignHex (DeriveSigningKey bbu.config.SecretKey bbu.dateString bbu.config.Region)
        (BBU.Policy bbu) := by
  constructor
  · rw [BBU.Signature, toSignature_spec]
    simp [BBU.toParams, BBU.Policy]
  · show bbuParams.toSignature ((bbuParams.toPolicy (BBU.toParams bbu)).2) = _
    rw [toSignature_after_toPolicy]
    rfl

/-- C2: for every session, the policy string base64-decodes (standard
alphabet) to exactly the canonical JSON object with the session's
conditions in insertion order, each a single-key object, and the session's
expiration — and the serialized bytes are independent of the secret key and
of the internal derivation fields (`SecretKey`, `Policy64`, `Region`,
`Date`). -/
theorem claim_C2 (bbu : BBU) :
    b64Decode (BBU.Policy bbu) =
      some (utf8Encode (policyJSONSpec bbu.Conditions bbu.expiration)) ∧
    (∀ (conds : List (String × String)) (e sk1 pol1 r1 d1 sk2 pol2 r2 d2 : String),
      renderParams ⟨conds, e, sk1, pol1, r1, d1⟩ =
        renderParams ⟨conds, e, sk2, pol2, r2, d2⟩) := by
  constructor
  · rw [show BBU.Policy bbu = b64Encode (utf8Encode (renderParams (BBU.toParams bbu))) from rfl,
      b64_roundtrip _ (utf8Encode_lt _), renderParams_eq_spec]
    rfl
  · intro conds e sk1 pol1 r1 d1 sk2 pol2 r2 d2
    rfl

/-- C3: in the bundle built by `FormFields`, the policy field is exactly
the cached base64 policy of the session, and the signature field is the
hex HMAC computed over that very string — never over an independently
re-derived encoding. -/
theorem claim_C3 (bbu : BBU) :
    (BBU.formFieldsResponse bbu).Policy = BBU.Policy bbu ∧
    (BBU.formFieldsResponse bbu).Signature =
      SignHex (DeriveSigningKey bbu.config.SecretKey bbu.dateString bbu.config.Region)
        ((BBU.formFieldsResponse bbu).Policy) := by
  refine ⟨rfl, ?_⟩
  show bbuParams.toSignature ((bbuParams.toPolicy (BBU.toParams bbu)).2) = _
  rw [toSignature_after_toPolicy]
  rfl

/-- C4: the claim fails on the code.  At the UTC instant
2024-03-05T14:30:00Z with ten minutes to expiry, `expirationDate` yields
"2024-03-05T14:40:00Z.000Z" — the RFC3339 `Z` suffix is not stripped,
because the code only truncates at a `+` — and not the claimed
"2024-03-05T14:40:00.000Z".  (At a positive-offset location the `+hh:mm`
is stripped but the retained time is local, e.g. offset +02:00 gives
"2024-03-05T16:40:00.000Z" for the same absolute instant.) -/
theorem claim_C4_bug :
    expirationDate ⟨1709649000, 0⟩ 10 = "2024-03-05T14:40:00Z.000Z" ∧
    expirationDate ⟨1709649000, 0⟩ 10 ≠ "2024-03-05T14:40:00.000Z" ∧
    expirationDate ⟨1709649000, 7200⟩ 10 = "2024-03-05T16:40:00.000Z" := by
  refine ⟨by decide, by decide, by decide⟩

/-- C5: the marshalling step of `toPolicy` cannot fail on the string-only
`bbuParams` structure (first conjunct), but the code's marshal-error branch
— were it ever taken — returns the empty string and leaves the params
unchanged instead of surfacing a failure (second conjunct), which is what
the claim and §7 of the specification require to be a hard failure. -/
theorem claim_C5_bug :
    (∀ p : bbuParams, jsonMarshalBBUParams p = some (renderParams p)) ∧
    (∀ p : bbuParams, (toPolicyCore none p).1 = "" ∧ (toPolicyCore none p).2 = p) :=
  ⟨fun _ => rfl, fun _ => ⟨rfl, rfl⟩⟩

/-- C6 counterexample: the instant 2024-03-06T04:30:00Z carried at a
location with offset -05:00 (the same absolute second 1709699400) is
formatted from its local calendar date, giving "20240305", while the UTC
convention demanded by the claim gives "20240306". -/
theorem claim_C6_cex :
    dateString ⟨1709699400, -18000⟩ = "20240305" ∧
    specCompactDateUTC ⟨1709699400, -18000⟩ = "20240306" ∧
    dateString ⟨1709699400, -18000⟩ ≠ specCompactDateUTC ⟨1709699400, -18000⟩ := by
  refine ⟨by decide, by decide, by decide⟩

/-- C6 as amended: `dateString` formats the calendar date in the instant's
own timezone (UTC only when the attached offset is zero) as `YYYYMMDD`;
`dateStringISO` appends the fixed midnight marker; the spec's examples hold
for UTC instants. -/
theorem claim_C6_amended :
    (∀ t : Instant, dateString t = localCompactDate t) ∧
    (∀ t : Instant, t.offset = 0 → dateString t = specCompactDateUTC t) ∧
    (∀ s : String, dateStringISO s = s ++ "T000000Z") ∧
    dateString ⟨1709649000, 0⟩ = "20240305" ∧
    dateStringISO "20240305" = "20240305T000000Z" := by
  refine ⟨dateString_eq_local, ?_, fun s => rfl, by decide, by decide⟩
  intro t h
  rw [dateString_eq_local]
  unfold localCompactDate specCompactDateUTC
  rw [h]
  norm_num

/-- C6 witness: the amended claim applied at the concrete UTC instant
2024-03-05T14:30:00Z, its offset hypothesis discharged by `rfl`. -/
theorem claim_C6_witness :
    dateString ⟨1709649000, 0⟩ = specCompactDateUTC ⟨1709649000, 0⟩ ∧
    dateString ⟨1709649000, 0⟩ = "20240305" :=
  ⟨claim_C6_amended.2.1 ⟨1709649000, 0⟩ rfl, claim_C6_amended.2.2.2.1⟩

/-- C7: immediately after `NewBBU`, the condition set is exactly the four
conditions bucket, credential (accessKey/dateCompact/region/s3/aws4_request),
the algorithm constant, and the ISO date — in that order. -/
theorem claim_C7 (cfg : S3Config) (now : Instant) (m : Int) :
    (NewBBU cfg now m).Conditions = [
      (fs4s.Bucket, cfg.Bucket),
      (fs4s.XAMZCredential,
        cfg.AccessKey ++ "/" ++ dateString now ++ "/" ++ cfg.Region ++ "/s3/aws4_request"),
      (fs4s.XAMZAlgorithm, fs4s.AWS4HmacSha256),
      (fs4s.XAMZDate, dateString now ++ "T000000Z")] := by
  have hcred : S3Config.credential cfg (dateString now) =
      cfg.AccessKey ++ "/" ++ dateString now ++ "/" ++ cfg.Region ++ "/s3/aws4_request" := by
    rw [show S3Config.credential cfg (dateString now) =
      cfg.AccessKey ++ "/" ++ dateString now ++ "/" ++ cfg.Region ++ "/" ++
        fs4s.CredentialScope from rfl]
    rw [show ("/s3/aws4_request" : String) = "/" ++ fs4s.CredentialScope from rfl]
    apply String.ext
    simp
  show ((NewBBU cfg now m).Conditions) = _
  rw [show (NewBBU cfg now m).Conditions = [
      (fs4s.Bucket, cfg.Bucket),
      (fs4s.XAMZCredential, S3Config.credential cfg (dateString now)),
      (fs4s.XAMZAlgorithm, fs4s.AWS4HmacSha256),
      (fs4s.XAMZDate, dateStringISO (dateString now))] from rfl]
  rw [hcred]
  rfl

/-- C8: `conditionForKey` is the first-match scan of the condition list
(equal to the spec's `Lookup`, so duplicate keys resolve to the first
entry and an absent key gives the empty string, never a failure), the
`FormFields` bundle echoes it for the redirect-URI and upload-key fields,
and those fields are empty when the conditions are absent. -/
theorem claim_C8 :
    (∀ (bbu : BBU) (key : String),
      BBU.conditionForKey bbu key = lookupSpec bbu.Conditions key) ∧
    (∀ bbu : BBU,
      (BBU.formFieldsResponse bbu).RedirectURI =
        BBU.conditionForKey bbu fs4s.SuccessActionRedirect ∧
      (BBU.formFieldsResponse bbu).Key = BBU.conditionForKey bbu fs4s.Key) ∧
    (∀ bbu : BBU, (∀ kv ∈ bbu.Conditions, kv.1 ≠ fs4s.SuccessActionRedirect) →
      (BBU.formFieldsResponse bbu).RedirectURI = "") ∧
    (∀ bbu : BBU, (∀ kv ∈ bbu.Conditions, kv.1 ≠ fs4s.Key) →
      (BBU.formFieldsResponse bbu).Key = "") ∧
    condForKeyList [("k", "v1"), ("k", "v2")] "k" = "v1" ∧
    condForKeyList [("a", "v")] "k" = "" := by
  have habsent : ∀ (l : List (String × String)) (key : String),
      (∀ kv ∈ l, kv.1 ≠ key) → condForKeyList l key = "" := by
    intro l key h
    rw [condForKeyList_eq_lookup, lookupSpec, List.find?_eq_none.mpr (by simpa using h)]
    rfl
  refine ⟨fun bbu key => condForKeyList_eq_lookup _ _, fun bbu => ⟨rfl, rfl⟩,
    fun bbu h => habsent _ _ h, fun bbu h => habsent _ _ h, by decide, by decide⟩

/-- C8 witness: the fresh demo session carries neither a redirect-URI nor
an upload-key condition, and the bundle's fields are empty. -/
theorem claim_C8_witness :
    (BBU.formFieldsResponse bbuDemo).RedirectURI = "" ∧
    (BBU.formFieldsResponse bbuDemo).Key = "" :=
  ⟨claim_C8.2.2.1 bbuDemo (by decide), claim_C8.2.2.2.1 bbuDemo (by decide)⟩

/-- C9: `FormFields` (and `Policy` and `Signature`) are deterministic pure
functions of the session state: two sessions agreeing on the fields the
computation reads — conditions, configuration values, expiration, compact
date, ISO date — produce byte-identical bundles, even if held in distinct
session values. -/
theorem claim_C9 (b1 b2 : BBU)
    (hconds : b1.Conditions = b2.Conditions) (hcfg : b1.config = b2.config)
    (hexp : b1.expiration = b2.expiration) (hds : b1.dateString = b2.dateString)
    (hiso : b1.DateStringISO = b2.DateStringISO) :
    BBU.FormFields b1 = BBU.FormFields b2 ∧
    BBU.Policy b1 = BBU.Policy b2 ∧
    BBU.Signature b1 = BBU.Signature b2 := by
  obtain ⟨c1, i1, cr1, cfg1, m1, e1, d1, s1, r1⟩ := b1
  obtain ⟨c2, i2, cr2, cfg2, m2, e2, d2, s2, r2⟩ := b2
  dsimp only at hconds hcfg hexp hds hiso
  subst hconds hcfg hexp hds hiso
  exact ⟨rfl, rfl, rfl⟩

/-- C9 witness: the theorem applied to two copies of the demo session. -/
theorem claim_C9_witness :
    BBU.FormFields bbuDemo = BBU.FormFields bbuDemo ∧
    BBU.Policy bbuDemo = BBU.Policy bbuDemo ∧
    BBU.Signature bbuDemo = BBU.Signature bbuDemo :=
  claim_C9 bbuDemo bbuDemo rfl rfl rfl rfl rfl

/-- C10: `FormFields` never returns an error: the final JSON marshalling of
the flat all-string response bundle always succeeds, so the result is
always `some` of the rendered bundle. -/
theorem claim_C10 (bbu : BBU) :
    BBU.FormFields bbu = some (renderBBUResponse (BBU.formFieldsResponse bbu)) ∧
    (BBU.FormFields bbu).isSome = true :=
  ⟨rfl, rfl⟩
